import Mathlib

/-!
Shallow embedding of `vmctrld.py`: a control daemon sequencing lifecycle
operations over virtual compute units (VMs managed through `qm`, containers
through `pct`).

Conventions of the embedding:
* Python machine state is passed explicitly; every function is computable.
* Calls into the external control programs are modelled by explicit
  parameters (the parsed text the call would produce) together with a
  `Bool` flag recording whether the external call was issued.
* Python code that can raise is embedded in `Except String`.
-/

set_option exponentiation.threshold 20000

deriving instance DecidableEq for Except

/-- Helper for `splitChar`: accumulate the current token (reversed) while
walking the character list. -/
def splitCharAux (sep : Char) : List Char → List Char → List String
  | [], acc => [String.mk acc.reverse]
  | c :: cs, acc =>
    if c == sep then String.mk acc.reverse :: splitCharAux sep cs []
    else splitCharAux sep cs (c :: acc)

/-- Python `s.split(sep)` for a one-character separator: split at every
occurrence, keeping empty pieces (`"".split(sep) == [""]`). -/
def splitChar (sep : Char) (s : String) : List String :=
  splitCharAux sep s.toList []

/-- Helper for `py_int?`: fold decimal digits; `none` once a non-digit is
seen or when no digit was seen at all. -/
def parseDigits : List Char → Option Nat → Option Nat
  | [], acc => acc
  | c :: cs, acc =>
    if c.isDigit then parseDigits cs (some ((acc.getD 0) * 10 + (c.toNat - 48)))
    else none

/-- Python `int(s)`: optional surrounding whitespace, an optional sign, then
decimal digits; anything else raises `ValueError` (embedded as `none`). -/
def py_int? (s : String) : Option Int :=
  let cs := ((s.toList.dropWhile Char.isWhitespace).reverse.dropWhile Char.isWhitespace).reverse
  match cs with
  | '-' :: rest => (parseDigits rest none).map (fun n => -(n : Int))
  | '+' :: rest => (parseDigits rest none).map (fun n => (n : Int))
  | rest => (parseDigits rest none).map (fun n => (n : Int))

/-- Helper for `pySplitWs`. -/
def pySplitWsAux : List Char → List Char → List String
  | [], acc => if acc.isEmpty then [] else [String.mk acc.reverse]
  | c :: cs, acc =>
    if c.isWhitespace then
      (if acc.isEmpty then pySplitWsAux cs [] else String.mk acc.reverse :: pySplitWsAux cs [])
    else pySplitWsAux cs (c :: acc)

/-- Python `s.split()` with no argument: split on runs of whitespace,
discarding empty tokens. -/
def pySplitWs (s : String) : List String := pySplitWsAux s.toList []

/-- `Status` constants (lines 9-13). -/
inductive Status where
  | unknown
  | stopped
  | running
  | paused
deriving DecidableEq, Repr

/-- `Cmd` constants (lines 15-22). -/
inductive Cmd where
  | start
  | shutdown
  | resume
  | suspend
  | hibernate
  | stop
deriving DecidableEq, Repr

/-- `str_status` (lines 24-28): token → status mapping. -/
def str_status : List (String × Status) :=
  [("stopped", Status.stopped), ("running", Status.running), ("paused", Status.paused)]

/-- `str_cmd` (lines 30-37): token → command mapping. -/
def str_cmd : List (String × Cmd) :=
  [("start", Cmd.start), ("shutdown", Cmd.shutdown), ("resume", Cmd.resume),
   ("suspend", Cmd.suspend), ("hibernate", Cmd.hibernate), ("stop", Cmd.stop)]

/-- `DRY` (line 7). -/
def DRY : Bool := false

/-- Python dict assignment `d[k] = v`: overwrite in place when the key is
present (keeping its position), append otherwise. -/
def dict_insert (d : List (String × String)) (k v : String) : List (String × String) :=
  if d.any (fun kv => kv.1 == k) then
    d.map (fun kv => if kv.1 == k then (k, v) else kv)
  else
    d ++ [(k, v)]

/-- `str_to_dict` (lines 45-46): `dict(item.split("=") for item in s.split(","))`.
An item that does not split into exactly a key and a value makes the `dict`
constructor raise `ValueError`, embedded as `Except.error`. -/
def str_to_dict (s : String) : Except String (List (String × String)) :=
  (splitChar ',' s).foldlM
    (fun d item =>
      match splitChar '=' item with
      | [k, v] => Except.ok (dict_insert d k v)
      | _ => Except.error ("dictionary update sequence element is not a pair: " ++ item))
    []

/-- `VirtualUnit` (lines 120-127). `configCache` is the private `__config`
cache; the enumeration environment below models each unit as already holding
the key-value configuration its external control program reports (the source
fetches it lazily on first `config()` access; the fetch-and-cache logic
itself is embedded in `VirtualUnit.config`). -/
structure VirtualUnit where
  vmid : String
  name : String := ""
  status : Status := Status.unknown
  configCache : List (String × String) := []
deriving DecidableEq, Repr

/-- `VirtualUnit.__change_state` (lines 128-136). `exitCode` is the exit
status of the spawned external command: the source waits on the process and
never reads the code, so it is an unused argument here. The returned `Bool`
records whether the external command was invoked. -/
def VirtualUnit.change_state (u : VirtualUnit) (new_status : Status)
    (old_status : List Status) (exitCode : Int) : VirtualUnit × Bool :=
  if u.status ∈ old_status then
    (u, false)
  else if DRY then
    (u, false)
  else
    ({ u with status := new_status }, true)

/-- `VirtualUnit.start` (lines 137-138). -/
def VirtualUnit.start (u : VirtualUnit) (exitCode : Int) : VirtualUnit × Bool :=
  u.change_state Status.running [Status.running] exitCode

/-- `VirtualUnit.shutdown` (lines 139-140). -/
def VirtualUnit.shutdown (u : VirtualUnit) (exitCode : Int) : VirtualUnit × Bool :=
  u.change_state Status.stopped [Status.stopped] exitCode

/-- `VirtualUnit.resume` (lines 141-142). -/
def VirtualUnit.resume (u : VirtualUnit) (exitCode : Int) : VirtualUnit × Bool :=
  u.change_state Status.running [Status.running] exitCode

/-- `VirtualUnit.suspend` (lines 143-144). -/
def VirtualUnit.suspend (u : VirtualUnit) (exitCode : Int) : VirtualUnit × Bool :=
  u.change_state Status.paused [Status.stopped, Status.paused] exitCode

/-- `VirtualUnit.hibernate` (lines 145-146). -/
def VirtualUnit.hibernate (u : VirtualUnit) (exitCode : Int) : VirtualUnit × Bool :=
  u.change_state Status.stopped [Status.stopped] exitCode

/-- `VirtualUnit.stop` (lines 147-148). -/
def VirtualUnit.stop (u : VirtualUnit) (exitCode : Int) : VirtualUnit × Bool :=
  u.change_state Status.stopped [Status.stopped] exitCode

/-- Dispatch a `Cmd` to the unit method it names (the method column of the
`actions` table in `main`, lines 327-334). -/
def applyCmd : Cmd → VirtualUnit → Int → VirtualUnit × Bool
  | Cmd.start, u, e => u.start e
  | Cmd.shutdown, u, e => u.shutdown e
  | Cmd.resume, u, e => u.resume e
  | Cmd.suspend, u, e => u.suspend e
  | Cmd.hibernate, u, e => u.hibernate e
  | Cmd.stop, u, e => u.stop e

/-- `VirtualUnit.config` (lines 149-160). `fetched` is the parsed key-value
output the external `config` query would produce; the returned `Bool`
records whether that external query was issued. -/
def VirtualUnit.config (u : VirtualUnit) (fetched : List (String × String)) (force : Bool) :
    VirtualUnit × List (String × String) × Bool :=
  if !force && u.configCache.length != 0 then
    (u, u.configCache, false)
  else
    ({ u with configCache := fetched }, fetched, true)

/-- `VirtualUnit.running` (lines 161-162). -/
def VirtualUnit.running (u : VirtualUnit) : Bool :=
  u.status == Status.running

/-- `VirtualUnit.onboot` (lines 163-167), reading the unit's configuration
mapping (see `VirtualUnit.configCache`). -/
def VirtualUnit.onboot (u : VirtualUnit) : Bool :=
  match u.configCache.lookup "onboot" with
  | some v => v == "1"
  | none => false

/-- `2**10000 # Infinite enough` (line 174). -/
def infinite_enough : Int := Int.ofNat (2 ^ 10000)

/-- `VirtualUnit.order` (lines 168-174), reading the unit's configuration
mapping. `str_to_dict` and `int(...)` can raise, hence `Except`. -/
def VirtualUnit.order? (u : VirtualUnit) : Except String Int :=
  let config := u.configCache
  match config.lookup "startup" with
  | some s =>
    match str_to_dict s with
    | Except.error e => Except.error e
    | Except.ok startup =>
      match startup.lookup "order" with
      | some o =>
          match py_int? o with
          | some n => Except.ok n
          | none => Except.error ("invalid literal for int: " ++ o)
      | none => Except.ok infinite_enough
  | none => Except.ok infinite_enough

/-- `VirtualUnit.delay_up` (lines 175-181). -/
def VirtualUnit.delay_up? (u : VirtualUnit) : Except String (Option Int) :=
  let config := u.configCache
  match config.lookup "startup" with
  | some s =>
    match str_to_dict s with
    | Except.error e => Except.error e
    | Except.ok startup =>
      match startup.lookup "up" with
      | some o =>
          match py_int? o with
          | some n => Except.ok (some n)
          | none => Except.error ("invalid literal for int: " ++ o)
      | none => Except.ok none
  | none => Except.ok none

/-- A Python runtime value as it matters for the status lookup in
`vm_list`/`ct_list`: either a string token or a `Popen` process handle. -/
inductive PyVal where
  | str (s : String)
  | procHandle (argv : List String)
deriving DecidableEq, Repr

/-- `status = str_status[status] if status in str_status else Status.UNKNOWN`
(lines 254 and 270): the dict's keys are strings, and a process handle is
equal to no string, so a handle always falls to the `else` branch. -/
def map_status_token : PyVal → Status
  | PyVal.str s =>
      match str_status.lookup s with
      | some st => st
      | none => Status.unknown
  | PyVal.procHandle _ => Status.unknown

/-- One parsed 6-column row of `vm_list` (lines 248-255). `rowToken` is the
status column of the `qm list` row; `queriedToken` is the token that reading
the output of the per-unit `qm status` re-query would yield. Line 253
rebinds the variable `status` to the process handle returned by
`qm.status(vmid)` without reading its output, so the lookup on line 254
inspects a handle; neither token is consulted, exactly as in the source. -/
def vm_row_unit (vmid name rowToken queriedToken : String) : VirtualUnit :=
  let status := PyVal.procHandle ["qm", "status", vmid]
  { vmid := vmid, name := name, status := map_status_token status }

/-- One parsed 3- or 4-column row of `ct_list` (lines 262-271): the status
token comes from the list row itself. -/
def ct_row_unit (vmid statusToken name : String) : VirtualUnit :=
  { vmid := vmid, name := name, status := map_status_token (PyVal.str statusToken) }

/-- `vm_list` (lines 244-256) over the whitespace-split data rows of
`qm list` output; `query` gives the token a per-unit `qm status` re-query
would report. Rows that are not exactly 6 columns are logged and skipped. -/
def vm_list (rows : List (List String)) (query : String → String) : List VirtualUnit :=
  rows.filterMap (fun line =>
    match line with
    | [vmid, name, status, _, _, _] => some (vm_row_unit vmid name status (query vmid))
    | _ => none)

/-- `ct_list` (lines 258-272) over the whitespace-split data rows of
`pct list` output: 4 columns are `(vmid, status, _, name)`, 3 columns are
`(vmid, status, name)`, anything else is logged and skipped. -/
def ct_list (rows : List (List String)) : List VirtualUnit :=
  rows.filterMap (fun line =>
    match line with
    | [vmid, status, _, name] => some (ct_row_unit vmid status name)
    | [vmid, status, name] => some (ct_row_unit vmid status name)
    | _ => none)

/-- The enumeration environment: the units the external control programs
report, containers first (`virtual_get_all`, lines 274-278, yields `ct_list`
then `vm_list`). Each unit carries its reported status and its configuration
mapping. -/
structure Env where
  cts : List VirtualUnit
  vms : List VirtualUnit
deriving DecidableEq, Repr

/-- `virtual_get_all` (lines 274-278). -/
def virtual_get_all (env : Env) : List VirtualUnit := env.cts ++ env.vms

/-- `virtual_get_onboot` (lines 280-283). -/
def virtual_get_onboot (env : Env) : List VirtualUnit :=
  (virtual_get_all env).filter (fun u => u.onboot)

/-- `virtual_get_running` (lines 285-288). -/
def virtual_get_running (env : Env) : List VirtualUnit :=
  (virtual_get_all env).filter (fun u => u.running)

/-- `virtual_find` (lines 290-297): match against id or name, containers
searched before VMs. -/
def virtual_find (env : Env) (arg : String) : Option VirtualUnit :=
  match env.cts.find? (fun c => c.vmid == arg || c.name == arg) with
  | some c => some c
  | none => env.vms.find? (fun v => v.vmid == arg || v.name == arg)

/-- Python `vms is []` (lines 300 and 312): identity comparison against a
freshly allocated empty-list object. No pre-existing object is identical to
a fresh allocation, so the test is `False` for every argument — including
the default argument and an empty list of parsed ids. -/
def py_is_empty_list_literal (vms : List String) : Bool := false

/-- The comparison `sorted(..., key=VirtualUnit.order)` applies to decorated
`(key, unit)` pairs. -/
def key_le (a b : Int × VirtualUnit) : Prop := a.1 ≤ b.1

instance : DecidableRel key_le :=
  fun a b => inferInstanceAs (Decidable (a.1 ≤ b.1))

instance : IsTotal (Int × VirtualUnit) key_le := ⟨fun a b => le_total a.1 b.1⟩

instance : IsTrans (Int × VirtualUnit) key_le := ⟨fun _ _ _ h1 h2 => le_trans h1 h2⟩

/-- The comparison for `sorted(..., reverse=True)`. -/
def key_ge (a b : Int × VirtualUnit) : Prop := b.1 ≤ a.1

instance : DecidableRel key_ge :=
  fun a b => inferInstanceAs (Decidable (b.1 ≤ a.1))

instance : IsTotal (Int × VirtualUnit) key_ge := ⟨fun a b => le_total b.1 a.1⟩

instance : IsTrans (Int × VirtualUnit) key_ge := ⟨fun _ _ _ h1 h2 => le_trans h2 h1⟩

/-- The key-computation pass of Python `sorted(l, key=VirtualUnit.order)`:
keys are computed left to right before any comparison; the first key that
raises aborts the whole call. -/
def decorate : List VirtualUnit → Except String (List (Int × VirtualUnit))
  | [] => Except.ok []
  | u :: rest =>
    match u.order? with
    | Except.error e => Except.error e
    | Except.ok k =>
      match decorate rest with
      | Except.error e => Except.error e
      | Except.ok tail => Except.ok ((k, u) :: tail)

/-- `sorted(l, key=VirtualUnit.order)` (line 309): Python's sort is stable;
modelled as the (stable) insertion sort over the decorated pairs. -/
def py_sorted_by_order (l : List VirtualUnit) : Except String (List VirtualUnit) :=
  match decorate l with
  | Except.error e => Except.error e
  | Except.ok keyed => Except.ok ((List.insertionSort key_le keyed).map (fun kv => kv.2))

/-- `sorted(l, key=VirtualUnit.order, reverse=True)` (line 321): stable
descending sort (ties keep their original relative order). -/
def py_sorted_by_order_rev (l : List VirtualUnit) : Except String (List VirtualUnit) :=
  match decorate l with
  | Except.error e => Except.error e
  | Except.ok keyed => Except.ok ((List.insertionSort key_ge keyed).map (fun kv => kv.2))

/-- `virtual_prepare_start` (lines 299-309). -/
def virtual_prepare_start (env : Env) (vms : List String) :
    Except String (List VirtualUnit) :=
  let l := if py_is_empty_list_literal vms then virtual_get_onboot env
           else vms.filterMap (virtual_find env)
  py_sorted_by_order l

/-- `virtual_prepare_shutdown` (lines 311-321). -/
def virtual_prepare_shutdown (env : Env) (vms : List String) :
    Except String (List VirtualUnit) :=
  let l := if py_is_empty_list_literal vms then virtual_get_running env
           else vms.filterMap (virtual_find env)
  py_sorted_by_order_rev l

/-- `UnitAction` (lines 185-198). The `run` callback stored by the source is
determined by `cmd` through the `actions` table in `main` and only matters at
execution time; queue semantics use only `cmd` and `unit`. -/
structure UnitAction where
  cmd : Cmd
  unit : VirtualUnit
deriving DecidableEq, Repr

/-- Python `a == action` between two queue entries (line 230):
`UnitAction.__eq__` compares `self.unit == other`, `VirtualUnit.__eq__`
compares `self.vmid == other`, and the resulting string-versus-`UnitAction`
comparison falls back to the reflected `UnitAction.__eq__` and then
`VirtualUnit.__eq__` again, bottoming out at vmid-versus-vmid string
equality. Net effect: two actions are equal iff their units share a vmid. -/
def action_matches (a b : UnitAction) : Bool :=
  a.unit.vmid == b.unit.vmid

/-- `UnitAction.should_cancel` (lines 197-198). -/
def UnitAction.should_cancel (a other : UnitAction) : Bool :=
  a.cmd != other.cmd

/-- `Daemon.try_cancel` (lines 226-235): scan the queue front to back for
the first entry whose unit matches; if its command differs, delete it (and
print an audit line); either way report `true`. Report `false` when nothing
matches. Returns the resulting queue together with the report. -/
def try_cancel : List UnitAction → UnitAction → List UnitAction × Bool
  | [], _ => ([], false)
  | a :: q, act =>
    if action_matches a act then
      (if a.should_cancel act then q else a :: q, true)
    else
      let r := try_cancel q act
      (a :: r.1, r.2)

/-- `Daemon.add` (lines 222-225): append at the tail. -/
def add (q : List UnitAction) (a : UnitAction) : List UnitAction :=
  q ++ [a]

/-- The enqueue path of `main` (lines 355-356 and 376-377):
`if not daemon.try_cancel(a): daemon.add(a)`. -/
def enqueue (q : List UnitAction) (a : UnitAction) : List UnitAction :=
  let r := try_cancel q a
  if r.2 then r.1 else add q a

/-- `Daemon.get` (lines 236-242): blocks while the queue is empty (modelled
as `none`), otherwise removes and returns the head. -/
def get : List UnitAction → Option (UnitAction × List UnitAction)
  | [] => none
  | a :: q => some (a, q)

/-- The pending actions a queue holds for the unit identifier `vmid`. -/
def pendingFor (q : List UnitAction) (vmid : String) : List UnitAction :=
  q.filter (fun a => a.unit.vmid == vmid)

/-- Queue states reachable from the empty queue by the scheduler's
operations: the coalesced enqueue of `main` and the worker's dequeue. -/
inductive Reachable : List UnitAction → Prop
  | init : Reachable []
  | enq (q : List UnitAction) (a : UnitAction) : Reachable q → Reachable (enqueue q a)
  | deq (q : List UnitAction) (a : UnitAction) (rest : List UnitAction) :
      Reachable q → get q = some (a, rest) → Reachable rest

/-- The planner column of the `actions` table in `main` (lines 327-334). -/
def action_planner : Cmd → Env → List String → Except String (List VirtualUnit)
  | Cmd.start, env, args => virtual_prepare_start env args
  | Cmd.shutdown, env, args => virtual_prepare_shutdown env args
  | Cmd.resume, env, args => virtual_prepare_start env args
  | Cmd.suspend, env, args => virtual_prepare_shutdown env args
  | Cmd.hibernate, env, args => virtual_prepare_shutdown env args
  | Cmd.stop, env, args => virtual_prepare_shutdown env args

/-- The mutable state of `main`'s control loop: the named-state store (the
`states` dict, insertion ordered, keys unique), the daemon's queue, and the
lines printed so far. -/
structure LoopState where
  states : List (String × List String)
  queue : List UnitAction
  log : List String
deriving DecidableEq, Repr

/-- The `save` branch of `main` (lines 357-366), after `args` has been split
into `name = args[0]` and `ids = args[1:]`. -/
def save_cmd (env : Env) (st : LoopState) (name : String) (ids : List String) :
    Except String LoopState :=
  if (st.states.lookup name).isSome then
    Except.ok { st with log := st.log ++ ["State " ++ name ++ " already exist"] }
  else
    match virtual_prepare_shutdown env ids with
    | Except.error e => Except.error e
    | Except.ok units =>
      Except.ok { st with states := st.states ++ [(name, units.map (fun u => u.vmid))] }

/-- The `load` branch of `main` (lines 367-378), after `name = args[0]`. -/
def load_cmd (env : Env) (st : LoopState) (name : String) : Except String LoopState :=
  match st.states.lookup name with
  | none => Except.ok { st with log := st.log ++ ["State " ++ name ++ " does not exist"] }
  | some state =>
      match virtual_prepare_start env state with
      | Except.error e => Except.error e
      | Except.ok units =>
        let q := units.foldl (fun q u => enqueue q { cmd := Cmd.start, unit := u }) st.queue
        Except.ok { st with queue := q, states := st.states.eraseP (fun kv => kv.1 == name) }

/-- The `list` branch of `main` (lines 379-388). With a first argument other
than `running` or `onboot` the local `l` is never assigned and the `for`
loop raises `NameError`, embedded as `Except.error`. -/
def list_cmd (env : Env) (st : LoopState) (args : List String) :
    Except String LoopState :=
  let sel : Except String (List VirtualUnit) :=
    match args with
    | [] => Except.ok (virtual_get_all env)
    | a0 :: _ =>
      if a0 = "running" then Except.ok (virtual_get_running env)
      else if a0 = "onboot" then Except.ok (virtual_get_onboot env)
      else Except.error "name l is not defined"
  match sel with
  | Except.error e => Except.error e
  | Except.ok l =>
      Except.ok { st with log := st.log ++ l.map (fun a => a.vmid ++ ", " ++ a.name) }

/-- Dispatch of one already-read command line (the body of the `while` loop
in `main`, lines 346-388). Raising Python code is embedded as
`Except.error`; the source catches no exception here. -/
def handle_line (env : Env) (st : LoopState) (line : String) :
    Except String LoopState :=
  match pySplitWs line with
  | [] => Except.ok st
  | cmd :: args =>
    match str_cmd.lookup cmd with
    | some action =>
        match action_planner action env args with
        | Except.error e => Except.error e
        | Except.ok units =>
          Except.ok { st with
            queue := units.foldl (fun q u => enqueue q { cmd := action, unit := u }) st.queue }
    | none =>
      if cmd = "save" then
        match args with
        | [] => Except.ok st
        | name :: ids => save_cmd env st name ids
      else if cmd = "load" then
        match args with
        | [] => Except.ok st
        | name :: _ => load_cmd env st name
      else if cmd = "list" then
        list_cmd env st args
      else
        Except.ok st

/-- One `readline` result: a line, or an exception raised while reading
(caught on lines 341-343, printed, loop continues). -/
inductive ReadLine where
  | line (s : String)
  | fail (e : String)
deriving DecidableEq, Repr

/-- The control loop of `main` (lines 338-388) over a stream of `readline`
results; the empty string is end of input (`if not line: break`). Failures
of `readline` itself are caught and logged; an exception raised while
dispatching a line is caught nowhere inside the loop and propagates
(`Except.error`). -/
def control_loop (env : Env) : List ReadLine → LoopState → Except String LoopState
  | [], st => Except.ok st
  | ReadLine.fail e :: rest, st =>
      control_loop env rest { st with log := st.log ++ [e] }
  | ReadLine.line l :: rest, st =>
      if l = "" then Except.ok st
      else
        match handle_line env st l with
        | Except.error e => Except.error e
        | Except.ok st2 => control_loop env rest st2

/-- The no-op guard sets exactly as claim C2 lists them. -/
def guard_statuses : Cmd → List Status
  | Cmd.start => [Status.running]
  | Cmd.shutdown => [Status.stopped]
  | Cmd.resume => [Status.running]
  | Cmd.suspend => [Status.stopped, Status.paused]
  | Cmd.hibernate => [Status.stopped]
  | Cmd.stop => [Status.stopped]

/-- The post-transition statuses exactly as claim C2 lists them. -/
def target_status : Cmd → Status
  | Cmd.start => Status.running
  | Cmd.shutdown => Status.stopped
  | Cmd.resume => Status.running
  | Cmd.suspend => Status.paused
  | Cmd.hibernate => Status.stopped
  | Cmd.stop => Status.stopped

/-- Ascending comparability of two units by their `order()` keys; used to
state sortedness of the start planner's output. -/
def asc_by_order (u v : VirtualUnit) : Prop :=
  ∀ ku kv : Int, u.order? = Except.ok ku → v.order? = Except.ok kv → ku ≤ kv

/-- Descending comparability of two units by their `order()` keys. -/
def desc_by_order (u v : VirtualUnit) : Prop :=
  ∀ ku kv : Int, u.order? = Except.ok ku → v.order? = Except.ok kv → kv ≤ ku

/-- Unit A of claim C3's example: declared startup order 10. -/
def unitA : VirtualUnit :=
  { vmid := "101", name := "A", status := Status.stopped,
    configCache := [("startup", "order=10")] }

/-- Unit B of claim C3's example: declared startup order 2. -/
def unitB : VirtualUnit :=
  { vmid := "102", name := "B", status := Status.stopped,
    configCache := [("startup", "order=2")] }

/-- Unit C of claim C3's example: no declared startup order. -/
def unitC : VirtualUnit :=
  { vmid := "103", name := "C", status := Status.stopped, configCache := [] }

/-- An environment holding exactly claim C3's three example units. -/
def env3 : Env := { cts := [unitA, unitB, unitC], vms := [] }

/-- A unit that is both configured `onboot` and currently running. -/
def unitOn : VirtualUnit :=
  { vmid := "100", name := "web", status := Status.running,
    configCache := [("onboot", "1")] }

/-- An environment whose only unit is `unitOn`. -/
def envOn : Env := { cts := [unitOn], vms := [] }

/-- A unit whose startup configuration holds a malformed order value. -/
def unitBadOrder : VirtualUnit :=
  { vmid := "100", name := "bad", status := Status.stopped,
    configCache := [("startup", "order=abc")] }

/-- An environment whose only unit is `unitBadOrder`. -/
def envBad : Env := { cts := [unitBadOrder], vms := [] }

theorem try_cancel_spec (q : List UnitAction) (a : UnitAction) :
    try_cancel q a =
      match q.find? (fun b => action_matches b a) with
      | none => (q, false)
      | some b =>
        (if b.should_cancel a then q.eraseP (fun x => action_matches x a) else q, true) := by
  induction q with
  | nil => rfl
  | cons x xs ih =>
    have hpx : ∀ y : UnitAction, (fun b => action_matches b a) y = action_matches y a :=
      fun y => rfl
    by_cases hx : action_matches x a
    · rw [List.find?_cons_of_pos (p := fun b => action_matches b a) xs hx]
      unfold try_cancel
      rw [if_pos hx, List.eraseP_cons_of_pos (p := fun b => action_matches b a) hx]
    · rw [List.find?_cons_of_neg (p := fun b => action_matches b a) xs hx]
      unfold try_cancel
      rw [if_neg hx, ih]
      cases hfind : xs.find? (fun b => action_matches b a) with
      | none => simp [hfind]
      | some b =>
        simp only [hfind, List.eraseP_cons_of_neg (p := fun b => action_matches b a) hx]
        by_cases hc : b.should_cancel a
        · rw [if_pos hc, if_pos hc]
        · rw [if_neg hc, if_neg hc]

theorem find?_of_filter_singleton {α : Type} {p : α → Bool} {q : List α} {b : α}
    (h : q.filter p = [b]) : q.find? p = some b := by
  induction q with
  | nil => simp at h
  | cons x xs ih =>
    by_cases hx : p x
    · rw [List.filter_cons_of_pos hx] at h
      rw [List.find?_cons_of_pos _ hx]
      exact congrArg some (List.cons_eq_cons.mp h).1
    · rw [List.filter_cons_of_neg hx] at h
      rw [List.find?_cons_of_neg _ hx]
      exact ih h

theorem filter_eraseP_of_singleton {α : Type} {p : α → Bool} {q : List α} {b : α}
    (h : q.filter p = [b]) : (q.eraseP p).filter p = [] := by
  induction q with
  | nil => simp at h
  | cons x xs ih =>
    by_cases hx : p x
    · rw [List.eraseP_cons_of_pos hx]
      rw [List.filter_cons_of_pos hx] at h
      exact (List.cons_eq_cons.mp h).2
    · rw [List.eraseP_cons_of_neg hx, List.filter_cons_of_neg hx]
      rw [List.filter_cons_of_neg hx] at h
      exact ih h

/-- C1: submitting a command `C` for a unit `U` through the enqueue path of
`main` (`try_cancel`, then `add` when `try_cancel` reports `false`): with no
pending action on `U` the new action is appended at the tail; with a pending
action on `U` carrying the same command the queue is unchanged; with a
pending action on `U` carrying a different command that entry is removed,
the new action is not enqueued, and `U` has zero pending actions. -/
theorem c1_enqueue_coalescing (q : List UnitAction) (a : UnitAction) :
    (pendingFor q a.unit.vmid = [] → enqueue q a = q ++ [a])
  ∧ (∀ b, pendingFor q a.unit.vmid = [b] → b.cmd = a.cmd → enqueue q a = q)
  ∧ (∀ b, pendingFor q a.unit.vmid = [b] → b.cmd ≠ a.cmd →
      enqueue q a = q.eraseP (fun x => action_matches x a)
      ∧ pendingFor (enqueue q a) a.unit.vmid = []) := by
  have hpred : (fun x : UnitAction => x.unit.vmid == a.unit.vmid) =
      (fun b => action_matches b a) := by
    funext x; rfl
  refine ⟨?_, ?_, ?_⟩
  · intro h
    unfold pendingFor at h
    rw [hpred] at h
    have hnone : q.find? (fun b => action_matches b a) = none := by
      rw [List.find?_eq_none]
      intro x hx
      exact List.filter_eq_nil_iff.mp h x hx
    unfold enqueue
    rw [try_cancel_spec, hnone]
    rfl
  · intro b hb hcmd
    unfold pendingFor at hb
    rw [hpred] at hb
    have hfind := find?_of_filter_singleton hb
    have hnc : b.should_cancel a = false := by
      unfold UnitAction.should_cancel
      simp [hcmd]
    unfold enqueue
    rw [try_cancel_spec, hfind]
    simp [hnc]
  · intro b hb hcmd
    unfold pendingFor at hb
    rw [hpred] at hb
    have hfind := find?_of_filter_singleton hb
    have hc : b.should_cancel a = true := by
      unfold UnitAction.should_cancel
      simp [hcmd]
    have henq : enqueue q a = q.eraseP (fun x => action_matches x a) := by
      unfold enqueue
      rw [try_cancel_spec, hfind]
      simp [hc]
    refine ⟨henq, ?_⟩
    rw [henq]
    unfold pendingFor
    rw [hpred]
    exact filter_eraseP_of_singleton hb

/-- Witness for `c1_enqueue_coalescing` at concrete queues. -/
theorem c1_enqueue_coalescing_witness :
    enqueue [] { cmd := Cmd.start, unit := { vmid := "7" } } =
        [{ cmd := Cmd.start, unit := { vmid := "7" } }]
    ∧ enqueue [{ cmd := Cmd.start, unit := { vmid := "7" } }]
        { cmd := Cmd.start, unit := { vmid := "7" } } =
        [{ cmd := Cmd.start, unit := { vmid := "7" } }]
    ∧ enqueue [{ cmd := Cmd.start, unit := { vmid := "7" } }]
        { cmd := Cmd.shutdown, unit := { vmid := "7" } } = [] := by
  refine ⟨?_, ?_, ?_⟩
  · exact (c1_enqueue_coalescing [] { cmd := Cmd.start, unit := { vmid := "7" } }).1
      (by decide)
  · exact (c1_enqueue_coalescing [{ cmd := Cmd.start, unit := { vmid := "7" } }]
      { cmd := Cmd.start, unit := { vmid := "7" } }).2.1
      { cmd := Cmd.start, unit := { vmid := "7" } } (by decide) (by decide)
  · have h := (c1_enqueue_coalescing [{ cmd := Cmd.start, unit := { vmid := "7" } }]
      { cmd := Cmd.shutdown, unit := { vmid := "7" } }).2.2
      { cmd := Cmd.start, unit := { vmid := "7" } } (by decide) (by decide)
    exact h.1.trans (by decide)

theorem enqueue_eq_cases (q : List UnitAction) (a : UnitAction) :
    (enqueue q a = q ++ [a] ∧ q.find? (fun b => action_matches b a) = none)
  ∨ enqueue q a = q
  ∨ enqueue q a = q.eraseP (fun x => action_matches x a) := by
  have hspec := try_cancel_spec q a
  cases hfind : q.find? (fun b => action_matches b a) with
  | none =>
    left
    refine ⟨?_, rfl⟩
    have h1 : try_cancel q a = (q, false) := by rw [hspec, hfind]
    simp [enqueue, h1, add]
  | some b =>
    right
    by_cases hc : b.should_cancel a
    · right
      have h1 : try_cancel q a = (q.eraseP (fun x => action_matches x a), true) := by
        rw [hspec, hfind]
        simp [hc]
      simp [enqueue, h1]
    · left
      have h1 : try_cancel q a = (q, true) := by
        rw [hspec, hfind]
        simp [hc]
      simp [enqueue, h1]

theorem pending_le_enqueue {q : List UnitAction} (a : UnitAction)
    (ih : ∀ v, (pendingFor q v).length ≤ 1) :
    ∀ v, (pendingFor (enqueue q a) v).length ≤ 1 := by
  intro v
  rcases enqueue_eq_cases q a with ⟨heq, hfind⟩ | heq | heq
  · rw [heq]
    unfold pendingFor
    rw [List.filter_append]
    by_cases hv : (a.unit.vmid == v) = true
    · have hveq : a.unit.vmid = v := beq_iff_eq.mp hv
      have hq0 : q.filter (fun x => x.unit.vmid == v) = [] := by
        rw [List.filter_eq_nil_iff]
        intro x hx
        have hxa := List.find?_eq_none.mp hfind x hx
        simp only [action_matches, Bool.not_eq_true] at hxa
        rw [← hveq]
        simp [hxa]
      rw [hq0]
      simp [hv]
    · have hq1 : List.filter (fun x => x.unit.vmid == v) [a] = [] := by
        simp only [Bool.not_eq_true] at hv
        simp [hv]
      rw [hq1]
      simpa using ih v
  · rw [heq]
    exact ih v
  · rw [heq]
    have hsub : List.Sublist (pendingFor (q.eraseP (fun x => action_matches x a)) v)
        (pendingFor q v) :=
      (List.eraseP_sublist q).filter _
    exact le_trans hsub.length_le (ih v)

theorem reachable_pending_le {q : List UnitAction} (h : Reachable q) :
    ∀ v, (pendingFor q v).length ≤ 1 := by
  induction h with
  | init =>
    intro v
    simp [pendingFor]
  | enq q a _ ih => exact pending_le_enqueue a ih
  | deq q a rest _ hget ih =>
    intro v
    cases q with
    | nil => cases hget
    | cons x xs =>
      have hinj : some (x, xs) = some (a, rest) := hget
      have hxs : rest = xs := by
        cases hinj
        rfl
      rw [hxs]
      have hsub : List.Sublist (pendingFor xs v) (pendingFor (x :: xs) v) :=
        (List.sublist_cons_self x xs).filter _
      exact le_trans hsub.length_le (ih v)

/-- C5: in every queue state reachable by the scheduler's operations
(coalesced enqueue, dequeue), each distinct unit identifier has at most one
pending action, and `get` removes and returns the head of the queue. -/
theorem c5_queue_invariant_fifo (q : List UnitAction) (h : Reachable q) :
    (∀ v, (pendingFor q v).length ≤ 1)
  ∧ (∀ a rest, q = a :: rest → get q = some (a, rest)) := by
  refine ⟨reachable_pending_le h, ?_⟩
  intro a rest hq
  rw [hq]
  rfl

/-- Witness for `c5_queue_invariant_fifo` on a concrete reachable queue. -/
theorem c5_queue_invariant_fifo_witness :
    (pendingFor (enqueue [] { cmd := Cmd.start, unit := { vmid := "7" } }) "7").length ≤ 1
  ∧ get (enqueue [] { cmd := Cmd.start, unit := { vmid := "7" } }) =
      some ({ cmd := Cmd.start, unit := { vmid := "7" } }, []) := by
  have h := c5_queue_invariant_fifo _
    (Reachable.enq [] { cmd := Cmd.start, unit := { vmid := "7" } } Reachable.init)
  exact ⟨h.1 "7", h.2 { cmd := Cmd.start, unit := { vmid := "7" } } [] (by decide)⟩

/-- C2: for every unit and every command, a cached status inside the
command's no-op guard set means no external call and an unchanged status;
otherwise the external command is invoked and the cached status becomes the
command's target status — the right-hand side does not mention `exitCode`,
so the outcome is independent of the external command's exit status. -/
theorem c2_transition_table (c : Cmd) (u : VirtualUnit) (exitCode : Int) :
    applyCmd c u exitCode =
      if u.status ∈ guard_statuses c then (u, false)
      else ({ u with status := target_status c }, true) := by
  cases c <;>
    simp [applyCmd, VirtualUnit.start, VirtualUnit.shutdown, VirtualUnit.resume,
      VirtualUnit.suspend, VirtualUnit.hibernate, VirtualUnit.stop,
      VirtualUnit.change_state, DRY, guard_statuses, target_status]

/-- C10: a call that issued the external config query and got an empty
mapping leaves the cache empty; any call on an empty cache issues the
external query even without `force`; a non-forced call on a non-empty cache
returns the cached mapping with no external call. -/
theorem c10_config_caching (u : VirtualUnit) (fetched : List (String × String)) (force : Bool) :
    ((u.config [] force).2.2 = true → (u.config [] force).1.configCache = [])
  ∧ (u.configCache = [] → (u.config fetched force).2.2 = true)
  ∧ (u.configCache ≠ [] → u.config fetched false = (u, u.configCache, false)) := by
  refine ⟨?_, ?_, ?_⟩
  · intro h
    unfold VirtualUnit.config at h ⊢
    by_cases hc : (!force && u.configCache.length != 0) = true
    · rw [if_pos hc] at h
      simp at h
    · rw [if_neg hc] at h ⊢
  · intro h
    unfold VirtualUnit.config
    simp [h]
  · intro h
    unfold VirtualUnit.config
    have hlen : (u.configCache.length != 0) = true := by
      simpa [bne, List.length_eq_zero] using h
    simp [hlen]

/-- Witness for `c10_config_caching` at concrete caches. -/
theorem c10_config_caching_witness :
    ((VirtualUnit.mk "9" "" Status.unknown []).config [] false).2.2 = true
  ∧ (VirtualUnit.mk "9" "" Status.unknown [("k", "v")]).config [("x", "y")] false =
      (VirtualUnit.mk "9" "" Status.unknown [("k", "v")], [("k", "v")], false) := by
  have h1 := c10_config_caching (VirtualUnit.mk "9" "" Status.unknown []) [] false
  have h2 := c10_config_caching (VirtualUnit.mk "9" "" Status.unknown [("k", "v")]) [("x", "y")] false
  exact ⟨h1.2.1 (by decide), h2.2.2 (by decide)⟩

/-- C7: `save` with an existing name only reports and mutates nothing (same
store, same queue, one report line appended); `load` with an absent name
only reports and mutates nothing. -/
theorem c7_save_duplicate_load_missing (env : Env) (st : LoopState) (name : String)
    (ids : List String) :
    ((st.states.lookup name).isSome = true →
        save_cmd env st name ids =
          Except.ok { st with log := st.log ++ ["State " ++ name ++ " already exist"] })
  ∧ (st.states.lookup name = none →
        load_cmd env st name =
          Except.ok { st with log := st.log ++ ["State " ++ name ++ " does not exist"] }) := by
  constructor
  · intro h
    unfold save_cmd
    rw [if_pos h]
  · intro h
    unfold load_cmd
    rw [h]

/-- Witness for `c7_save_duplicate_load_missing` on concrete stores. -/
theorem c7_save_duplicate_load_missing_witness :
    save_cmd { cts := [], vms := [] } { states := [("x", ["1"])], queue := [], log := [] } "x" [] =
      Except.ok { states := [("x", ["1"])], queue := [], log := ["State x already exist"] }
  ∧ load_cmd { cts := [], vms := [] } { states := [], queue := [], log := [] } "x" =
      Except.ok { states := [], queue := [], log := ["State x does not exist"] } := by
  have h := c7_save_duplicate_load_missing { cts := [], vms := [] }
    { states := [("x", ["1"])], queue := [], log := [] } "x" []
  have h2 := c7_save_duplicate_load_missing { cts := [], vms := [] }
    { states := [], queue := [], log := [] } "x" []
  exact ⟨(h.1 (by decide)).trans (by decide), (h2.2 (by decide)).trans (by decide)⟩

theorem decorate_mem {l : List VirtualUnit} {keyed : List (Int × VirtualUnit)}
    (h : decorate l = Except.ok keyed) :
    ∀ kv ∈ keyed, kv.2.order? = Except.ok kv.1 := by
  induction l generalizing keyed with
  | nil =>
    simp only [decorate] at h
    cases h
    intro kv hkv
    cases hkv
  | cons u rest ih =>
    simp only [decorate] at h
    cases ho : u.order? with
    | error e =>
      rw [ho] at h
      cases h
    | ok k =>
      rw [ho] at h
      cases hd : decorate rest with
      | error e =>
        rw [hd] at h
        cases h
      | ok tail =>
        rw [hd] at h
        cases h
        intro kv hkv
        rcases List.mem_cons.mp hkv with hkv | hkv
        · subst hkv
          exact ho
        · exact ih hd kv hkv

theorem py_sorted_pairwise {l m : List VirtualUnit}
    (h : py_sorted_by_order l = Except.ok m) : m.Pairwise asc_by_order := by
  unfold py_sorted_by_order at h
  cases hd : decorate l with
  | error e =>
    rw [hd] at h
    cases h
  | ok keyed =>
    rw [hd] at h
    cases h
    rw [List.pairwise_map]
    have hsorted : List.Pairwise key_le (List.insertionSort key_le keyed) :=
      List.sorted_insertionSort key_le keyed
    refine List.Pairwise.imp_of_mem ?_ hsorted
    intro kv1 kv2 h1 h2 hle
    have hm1 : kv1 ∈ keyed := (List.perm_insertionSort key_le keyed).mem_iff.mp h1
    have hm2 : kv2 ∈ keyed := (List.perm_insertionSort key_le keyed).mem_iff.mp h2
    have e1 := decorate_mem hd kv1 hm1
    have e2 := decorate_mem hd kv2 hm2
    intro ku kv hku hkv
    rw [e1] at hku
    rw [e2] at hkv
    cases hku
    cases hkv
    exact hle

theorem py_sorted_rev_pairwise {l m : List VirtualUnit}
    (h : py_sorted_by_order_rev l = Except.ok m) : m.Pairwise desc_by_order := by
  unfold py_sorted_by_order_rev at h
  cases hd : decorate l with
  | error e =>
    rw [hd] at h
    cases h
  | ok keyed =>
    rw [hd] at h
    cases h
    rw [List.pairwise_map]
    have hsorted : List.Pairwise key_ge (List.insertionSort key_ge keyed) :=
      List.sorted_insertionSort key_ge keyed
    refine List.Pairwise.imp_of_mem ?_ hsorted
    intro kv1 kv2 h1 h2 hle
    have hm1 : kv1 ∈ keyed := (List.perm_insertionSort key_ge keyed).mem_iff.mp h1
    have hm2 : kv2 ∈ keyed := (List.perm_insertionSort key_ge keyed).mem_iff.mp h2
    have e1 := decorate_mem hd kv1 hm1
    have e2 := decorate_mem hd kv2 hm2
    intro ku kv hku hkv
    rw [e1] at hku
    rw [e2] at hkv
    cases hku
    cases hkv
    exact hle

theorem prepare_start_pairwise {env : Env} {ids : List String} {l : List VirtualUnit}
    (h : virtual_prepare_start env ids = Except.ok l) : l.Pairwise asc_by_order := by
  unfold virtual_prepare_start at h
  exact py_sorted_pairwise h

theorem prepare_shutdown_pairwise {env : Env} {ids : List String} {l : List VirtualUnit}
    (h : virtual_prepare_shutdown env ids = Except.ok l) : l.Pairwise desc_by_order := by
  unfold virtual_prepare_shutdown at h
  exact py_sorted_rev_pairwise h

/-- C3: a unit whose startup configuration lacks an `order` subkey (or the
whole `startup` key) gets the effectively-infinite sentinel `2 ^ 10000` as
its key; `prepare_start` output is pairwise ascending by `order()`,
`prepare_shutdown` output pairwise descending; over the example units with
orders A:10, B:2, C:none, `prepare_start` yields `[B, A, C]` and
`prepare_shutdown` yields `[C, A, B]`. -/
theorem c3_planner_ordering :
    (∀ u : VirtualUnit, u.configCache.lookup "startup" = none →
        u.order? = Except.ok infinite_enough)
  ∧ (∀ (u : VirtualUnit) (s : String) (d : List (String × String)),
        u.configCache.lookup "startup" = some s → str_to_dict s = Except.ok d →
        d.lookup "order" = none → u.order? = Except.ok infinite_enough)
  ∧ (∀ (env : Env) (ids : List String) (l : List VirtualUnit),
        virtual_prepare_start env ids = Except.ok l → l.Pairwise asc_by_order)
  ∧ (∀ (env : Env) (ids : List String) (l : List VirtualUnit),
        virtual_prepare_shutdown env ids = Except.ok l → l.Pairwise desc_by_order)
  ∧ virtual_prepare_start env3 ["A", "B", "C"] = Except.ok [unitB, unitA, unitC]
  ∧ virtual_prepare_shutdown env3 ["A", "B", "C"] = Except.ok [unitC, unitA, unitB] := by
  refine ⟨?_, ?_, ?_, ?_, ?_, ?_⟩
  · intro u h
    simp only [VirtualUnit.order?]
    rw [h]
  · intro u s d h1 h2 h3
    simp only [VirtualUnit.order?, h1, h2, h3]
  · intro env ids l h
    exact prepare_start_pairwise h
  · intro env ids l h
    exact prepare_shutdown_pairwise h
  · decide
  · decide

/-- Witness for `c3_planner_ordering` at concrete units. -/
theorem c3_planner_ordering_witness :
    unitC.order? = Except.ok infinite_enough
  ∧ List.Pairwise asc_by_order [unitB, unitA, unitC] :=
  ⟨c3_planner_ordering.1 unitC (by decide),
   c3_planner_ordering.2.2.1 env3 ["A", "B", "C"] [unitB, unitA, unitC] (by decide)⟩

/-- C4 fails on the code: `vms is []` (lines 300 and 312) is an identity
test against a freshly created list object and is always false, so with an
empty identifier list both planners take the resolve-each-id branch over no
ids and return the empty plan, even though the environment has a unit that
is `onboot` and `Running` (so the claimed default selections are
non-empty). -/
theorem c4_empty_ids_selects_nothing :
    virtual_get_onboot envOn = [unitOn]
  ∧ virtual_get_running envOn = [unitOn]
  ∧ virtual_prepare_start envOn [] = Except.ok []
  ∧ virtual_prepare_shutdown envOn [] = Except.ok [] := by
  refine ⟨by decide, by decide, by decide, by decide⟩

/-- C9 fails on the code for VM-like units: the status variable is rebound
to the `qm status` process handle (line 253) whose output is never read, so
the lookup on line 254 sees a handle and every VM-like unit is constructed
with status `Unknown`, whatever the list row or the re-query would report.
Container-like units map their list-row token as the claim states. -/
theorem c9_status_token_mapping :
    (∀ vmid name rowToken queriedToken : String,
        (vm_row_unit vmid name rowToken queriedToken).status = Status.unknown)
  ∧ (vm_row_unit "100" "web" "running" "running").status = Status.unknown
  ∧ (ct_row_unit "101" "running" "db").status = Status.running
  ∧ (ct_row_unit "102" "stopped" "db").status = Status.stopped
  ∧ (ct_row_unit "103" "paused" "db").status = Status.paused
  ∧ (ct_row_unit "104" "suspended" "db").status = Status.unknown := by
  exact ⟨fun vmid name rowToken queriedToken => rfl,
    by decide, by decide, by decide, by decide, by decide⟩

/-- C8 counterexample: dispatching `start 100` over a unit whose startup
order value is malformed makes `int(...)` raise inside the planner, and the
control loop catches nothing around dispatch — the exception propagates out
of the loop instead of being reduced to a logged message. -/
theorem c8_dispatch_exception_escapes :
    control_loop envBad [ReadLine.line "start 100"]
        { states := [], queue := [], log := [] } =
      Except.error "invalid literal for int: abc" := by decide

/-- C8 amended: only exceptions raised by `readline` itself are caught at
the control loop (logged; the loop continues with the next line); an
exception raised while dispatching a command line is caught nowhere in the
loop and propagates out of it. -/
theorem c8_only_read_errors_caught (env : Env) (st : LoopState)
    (e l : String) (rest : List ReadLine) :
    (control_loop env (ReadLine.fail e :: rest) st =
        control_loop env rest { st with log := st.log ++ [e] })
  ∧ (l ≠ "" → handle_line env st l = Except.error e →
        control_loop env (ReadLine.line l :: rest) st = Except.error e) := by
  constructor
  · rfl
  · intro h1 h2
    unfold control_loop
    rw [if_neg h1, h2]

/-- Witness for `c8_only_read_errors_caught` at the malformed-order
environment. -/
theorem c8_only_read_errors_caught_witness :
    control_loop envBad [ReadLine.line "start 100", ReadLine.line "list"]
        { states := [], queue := [], log := [] } =
      Except.error "invalid literal for int: abc"
  ∧ control_loop envBad [ReadLine.fail "read failed"]
        { states := [], queue := [], log := [] } =
      control_loop envBad [] { states := [], queue := [], log := [] ++ ["read failed"] } := by
  have h := c8_only_read_errors_caught envBad { states := [], queue := [], log := [] }
    "invalid literal for int: abc" "start 100" [ReadLine.line "list"]
  have h2 := c8_only_read_errors_caught envBad { states := [], queue := [], log := [] }
    "read failed" "x" []
  exact ⟨h.2 (by decide) (by decide), h2.1⟩

theorem enqueue_of_no_pending {q : List UnitAction} {a : UnitAction}
    (h : pendingFor q a.unit.vmid = []) : enqueue q a = q ++ [a] := by
  have hnone : q.find? (fun b => action_matches b a) = none := by
    rw [List.find?_eq_none]
    intro x hx
    exact List.filter_eq_nil_iff.mp h x hx
  have h1 : try_cancel q a = (q, false) := by rw [try_cancel_spec, hnone]
  simp [enqueue, h1, add]

theorem foldl_enqueue_fresh (c : Cmd) :
    ∀ (units : List VirtualUnit) (q : List UnitAction),
    (∀ u ∈ units, pendingFor q u.vmid = []) →
    (units.map (fun u => u.vmid)).Nodup →
    units.foldl (fun q u => enqueue q { cmd := c, unit := u }) q =
      q ++ units.map (fun u => { cmd := c, unit := u }) := by
  intro units
  induction units with
  | nil =>
    intro q _ _
    simp
  | cons u rest ih =>
    intro q hpend hnodup
    simp only [List.foldl_cons, List.map_cons]
    have h1 : enqueue q { cmd := c, unit := u } = q ++ [{ cmd := c, unit := u }] :=
      enqueue_of_no_pending (hpend u (List.mem_cons_self u rest))
    rw [h1]
    have hnd : u.vmid ∉ rest.map (fun u => u.vmid) ∧ (rest.map (fun u => u.vmid)).Nodup :=
      List.nodup_cons.mp (by simpa using hnodup)
    have htail : ∀ w ∈ rest, pendingFor (q ++ [{ cmd := c, unit := u }]) w.vmid = [] := by
      intro w hw
      unfold pendingFor
      rw [List.filter_append]
      have hq : pendingFor q w.vmid = [] := hpend w (List.mem_cons_of_mem u hw)
      have hne : (u.vmid == w.vmid) = false := by
        cases hc : (u.vmid == w.vmid) with
        | false => rfl
        | true =>
          exfalso
          have heq : u.vmid = w.vmid := beq_iff_eq.mp hc
          have hmem : u.vmid ∈ rest.map (fun u => u.vmid) := by
            rw [heq]
            exact List.mem_map_of_mem _ hw
          exact hnd.1 hmem
      have h2 : List.filter (fun x : UnitAction => x.unit.vmid == w.vmid)
          [({ cmd := c, unit := u } : UnitAction)] = [] := by
        simp [hne]
      rw [h2]
      simpa [pendingFor] using hq
    rw [ih (q ++ [({ cmd := c, unit := u } : UnitAction)]) htail hnd.2]
    simp

theorem lookup_append_self {β : Type} (l : List (String × β)) (name : String) (v : β)
    (h : l.lookup name = none) : (l ++ [(name, v)]).lookup name = some v := by
  induction l with
  | nil => simp [List.lookup]
  | cons x xs ih =>
    cases x with
    | mk k b =>
      cases hk : (name == k) with
      | true => simp [List.lookup, hk] at h
      | false =>
        have hxs : xs.lookup name = none := by
          simpa [List.lookup, hk] using h
        rw [List.cons_append]
        simp only [List.lookup, hk]
        exact ih hxs

theorem eraseP_append_key {β : Type} (l : List (String × β)) (name : String) (v : β)
    (h : l.lookup name = none) :
    (l ++ [(name, v)]).eraseP (fun kv => kv.1 == name) = l := by
  induction l with
  | nil => simp [List.eraseP]
  | cons x xs ih =>
    cases x with
    | mk k b =>
      cases hk : (name == k) with
      | true => simp [List.lookup, hk] at h
      | false =>
        have hk2 : (k == name) = false := by
          cases hx : (k == name) with
          | false => rfl
          | true =>
            exfalso
            have heq : k = name := beq_iff_eq.mp hx
            rw [heq] at hk
            simp at hk
        have hxs : xs.lookup name = none := by
          simpa [List.lookup, hk] using h
        rw [List.cons_append, List.eraseP_cons_of_neg (by simp [hk2]), ih hxs]

theorem save_cmd_fresh (env : Env) (st : LoopState) (name : String) (ids : List String)
    (ws : List VirtualUnit)
    (hfresh : st.states.lookup name = none)
    (hsave : virtual_prepare_shutdown env ids = Except.ok ws) :
    save_cmd env st name ids =
      Except.ok { st with states := st.states ++ [(name, ws.map (fun u => u.vmid))] } := by
  unfold save_cmd
  rw [if_neg (by rw [hfresh]; simp), hsave]

theorem load_cmd_found (env : Env) (st : LoopState) (name : String)
    (sids : List String) (us : List VirtualUnit)
    (hlk : st.states.lookup name = some sids)
    (hst : virtual_prepare_start env sids = Except.ok us) :
    load_cmd env st name =
      Except.ok { st with
        states := st.states.eraseP (fun kv => kv.1 == name),
        queue := us.foldl (fun q u => enqueue q { cmd := Cmd.start, unit := u }) st.queue } := by
  unfold load_cmd
  rw [hlk]
  dsimp only
  rw [hst]

/-- C6: after a successful `save(name, ids)` (fresh name, shutdown plan
`ws`), `load(name)` re-resolves the saved identifiers into the start plan
`us` (one unit per resolvable saved identifier, pairwise ascending by
current `order()`), appends exactly one `Start` action per such unit to the
queue in that order, and removes `name` from the store, so a second
`load(name)` reports the name as missing and changes nothing. -/
theorem c6_save_then_load (env : Env) (st : LoopState) (name : String)
    (ids : List String) (ws us : List VirtualUnit)
    (hfresh : st.states.lookup name = none)
    (hsave : virtual_prepare_shutdown env ids = Except.ok ws)
    (hload : virtual_prepare_start env (ws.map (fun u => u.vmid)) = Except.ok us)
    (hnodup : (us.map (fun u => u.vmid)).Nodup)
    (hpend : ∀ u ∈ us, pendingFor st.queue u.vmid = []) :
    ∃ st1 st2 : LoopState,
      save_cmd env st name ids = Except.ok st1
      ∧ st1.queue = st.queue
      ∧ load_cmd env st1 name = Except.ok st2
      ∧ st2.queue = st.queue ++ us.map (fun u => { cmd := Cmd.start, unit := u })
      ∧ us.Pairwise asc_by_order
      ∧ st2.states = st.states
      ∧ st2.states.lookup name = none
      ∧ load_cmd env st2 name =
          Except.ok { st2 with log := st2.log ++ ["State " ++ name ++ " does not exist"] } := by
  have hsave_eq := save_cmd_fresh env st name ids ws hfresh hsave
  have hlk1 : (st.states ++ [(name, ws.map (fun u => u.vmid))]).lookup name =
      some (ws.map (fun u => u.vmid)) := lookup_append_self _ _ _ hfresh
  have herase : (st.states ++ [(name, ws.map (fun u => u.vmid))]).eraseP
      (fun kv => kv.1 == name) = st.states := eraseP_append_key _ _ _ hfresh
  have hfold : us.foldl (fun q u => enqueue q { cmd := Cmd.start, unit := u }) st.queue =
      st.queue ++ us.map (fun u => { cmd := Cmd.start, unit := u }) :=
    foldl_enqueue_fresh Cmd.start us st.queue hpend hnodup
  have hload_eq := load_cmd_found env
    { st with states := st.states ++ [(name, ws.map (fun u => u.vmid))] } name
    (ws.map (fun u => u.vmid)) us hlk1 hload
  rw [herase, hfold] at hload_eq
  refine ⟨{ st with states := st.states ++ [(name, ws.map (fun u => u.vmid))] },
    { st with queue := st.queue ++ us.map (fun u => { cmd := Cmd.start, unit := u }) },
    hsave_eq, rfl, hload_eq, rfl, prepare_start_pairwise hload, rfl, hfresh, ?_⟩
  unfold load_cmd
  rw [hfresh]

/-- Witness for `c6_save_then_load` at a concrete environment: save then
load of `x` over units A and B. -/
theorem c6_save_then_load_witness :
    ∃ st1 st2 : LoopState,
      save_cmd env3 { states := [], queue := [], log := [] } "x" ["A", "B"] = Except.ok st1
      ∧ st1.queue = []
      ∧ load_cmd env3 st1 "x" = Except.ok st2
      ∧ st2.queue = [] ++ [unitB, unitA].map (fun u => { cmd := Cmd.start, unit := u })
      ∧ [unitB, unitA].Pairwise asc_by_order
      ∧ st2.states = []
      ∧ st2.states.lookup "x" = none
      ∧ load_cmd env3 st2 "x" =
          Except.ok { st2 with log := st2.log ++ ["State " ++ "x" ++ " does not exist"] } :=
  c6_save_then_load env3 { states := [], queue := [], log := [] } "x" ["A", "B"]
    [unitA, unitB] [unitB, unitA] (by decide) (by decide) (by decide) (by decide)
    (by decide)
